import Mathlib

/-!
Shallow embedding of `src/promql/src/extension_plan/empty_metric.rs`
(GreptimeDB's `EmptyMetric` PromQL extension plan): the logical node
`EmptyMetric`, the physical node `EmptyMetricExec`, and the one-shot
`EmptyMetricStream` that enumerates `(start..=end).step_by(interval as usize)`
and optionally evaluates a field expression against the generated timestamps.
-/

deriving instance DecidableEq for Except

namespace EmptyMetricSpec

/-- `Millisecond` from `crate::extension_plan` is `i64`; embedded as `Int`
(with explicit two's-complement wrapping where the code casts to `usize`). -/
abbrev Millisecond := Int

/-- Model of Arrow `DataType`, restricted to the variants this file touches. -/
inductive DataType where
  | timestampMs
  | int64
  | float64
  | utf8
  deriving DecidableEq, Repr, Ord

/-- Model of an Arrow `Field`: name, data type, nullability. -/
structure Field where
  name : String
  dataType : DataType
  nullable : Bool
  deriving DecidableEq, Repr

/-- Errors surfaced through `DataFusionResult`; constructors stand for the
error kinds this file can produce or propagate. -/
inductive DFError where
  | schemaFieldNotFound (name : String)
  | duplicateQualifiedField
  | typeCoercion
  | arrowInvalidArgument
  | evaluation (msg : String)
  deriving DecidableEq, Repr

/-- Model of `DFSchema`: qualified fields (qualifier, field). Metadata is
always the empty map in this file and is omitted. -/
structure DFSchema where
  qfields : List (Option String × Field)
  deriving DecidableEq, Repr

/-- `DFSchema::new_with_metadata`: fails on duplicate qualified field names. -/
def DFSchema.new_with_metadata (fields : List (Option String × Field)) :
    Except DFError DFSchema :=
  if (fields.map (fun qf => (qf.1, qf.2.name))).Nodup then
    .ok ⟨fields⟩
  else
    .error .duplicateQualifiedField

instance (fields : List (Option String × Field)) :
    Decidable ((fields.map (fun qf => (qf.1, qf.2.name))).Nodup) :=
  List.nodupDecidable _

/-- Model of the external DataFusion logical `Expr`, restricted to the
constructors this file builds (`col`, `lit`, `cast_to`, `Div`). -/
inductive Expr where
  | col (name : String)
  | litFloat (milli : Int)
  | litInt (v : Int)
  | cast (e : Expr) (target : DataType)
  | div (lhs rhs : Expr)
  deriving DecidableEq, Repr, Ord

/-- Model of the external `Expr::get_type`: type-check an expression against a
schema; column references are resolved by unqualified name, `cast` yields its
target type, `div` requires both sides to coerce to a common numeric type. -/
def Expr.get_type (schema : DFSchema) : Expr → Except DFError DataType
  | .col name =>
      match schema.qfields.find? (fun qf => qf.2.name = name) with
      | some qf => .ok qf.2.dataType
      | none => .error (.schemaFieldNotFound name)
  | .litFloat _ => .ok .float64
  | .litInt _ => .ok .int64
  | .cast e target => do
      let _ ← e.get_type schema
      .ok target
  | .div lhs rhs => do
      let tl ← lhs.get_type schema
      let tr ← rhs.get_type schema
      match tl, tr with
      | .float64, .float64 => .ok .float64
      | .float64, .int64 => .ok .float64
      | .int64, .float64 => .ok .float64
      | .int64, .int64 => .ok .int64
      | _, _ => .error .typeCoercion

/-- `build_ts_only_schema`: a schema holding exactly one non-nullable
millisecond-timestamp column, qualified by the bare table reference. -/
def build_ts_only_schema (column_name : String) : DFSchema :=
  ⟨[(some "", ⟨column_name, .timestampMs, false⟩)]⟩

/-- The logical node `EmptyMetric`. In Rust it is
`#[derive(Debug, Clone, PartialEq, Eq, Hash)]`, so the derived equality
compares every field, the two schema fields included. -/
structure EmptyMetric where
  start : Millisecond
  end_ : Millisecond
  interval : Millisecond
  expr : Option Expr
  /-- Schema that only contains the time index column. -/
  time_index_schema : DFSchema
  /-- Schema of the output record batch. -/
  result_schema : DFSchema
  deriving DecidableEq, Repr

/-- The derived `PartialEq` on `EmptyMetric`: field-by-field over all six
fields, the two schemas included. -/
def EmptyMetric.rustEq (a b : EmptyMetric) : Bool :=
  a.start = b.start ∧ a.end_ = b.end_ ∧ a.interval = b.interval ∧
    a.expr = b.expr ∧ a.time_index_schema = b.time_index_schema ∧
    a.result_schema = b.result_schema

/-- `EmptyMetric::new`: build the ts-only schema, type-check the optional
field expression against it, and assemble the result schema (time column,
then the nullable value column typed by the expression). -/
def EmptyMetric.new (start end_ interval : Millisecond)
    (time_index_column_name field_column_name : String)
    (field_expr : Option Expr) : Except DFError EmptyMetric :=
  let qualifier : Option String := some ""
  let ts_only_schema := build_ts_only_schema time_index_column_name
  let headFields := [(qualifier, (⟨time_index_column_name, .timestampMs, false⟩ : Field))]
  let fields : Except DFError (List (Option String × Field)) :=
    match field_expr with
    | some fe =>
        match fe.get_type ts_only_schema with
        | .error e => .error e
        | .ok field_data_type =>
            .ok (headFields ++
              [(qualifier, (⟨field_column_name, field_data_type, true⟩ : Field))])
    | none => .ok headFields
  match fields with
  | .error e => .error e
  | .ok fields =>
    match DFSchema.new_with_metadata fields with
    | .error e => .error e
    | .ok schema =>
        .ok { start := start, end_ := end_, interval := interval,
              time_index_schema := ts_only_schema,
              result_schema := schema, expr := field_expr }

/-- The hand-written `PartialOrd::partial_cmp` for `EmptyMetric`: lexicographic
over `(start, end, interval, expr)`, schemas excluded. `Option.cmp` mirrors
Rust's `Option::partial_cmp` (`None < Some _`), and expression comparison is
total in this model (Rust's derived one is `Some`-valued on these variants). -/
def EmptyMetric.pcmp (a b : EmptyMetric) : Option Ordering :=
  match compare a.start b.start with
  | .eq =>
      match compare a.end_ b.end_ with
      | .eq =>
          match compare a.interval b.interval with
          | .eq =>
              match a.expr, b.expr with
              | none, none => some .eq
              | none, some _ => some .lt
              | some _, none => some .gt
              | some x, some y => some (compare x y)
          | ord => some ord
      | ord => some ord
  | ord => some ord

/-- `EmptyMetric::with_exprs_and_inputs`: keep every field except `expr`,
which becomes the first supplied expression (or `None`); inputs are ignored
and the result schema is *not* recomputed. -/
def EmptyMetric.with_exprs_and_inputs (m : EmptyMetric) (exprs : List Expr)
    (_inputs : List Unit) : Except DFError EmptyMetric :=
  .ok { start := m.start, end_ := m.end_, interval := m.interval,
        expr := exprs.head?,
        time_index_schema := m.time_index_schema,
        result_schema := m.result_schema }

/-- `UserDefinedLogicalNodeCore::expressions` for `EmptyMetric`. -/
def EmptyMetric.expressions (m : EmptyMetric) : List Expr :=
  match m.expr with
  | some e => [e]
  | none => []

/-! ## Arrow-side model: columns and record batches -/

/-- Model of an Arrow array: a data type plus its values (the numeric content
of non-timestamp columns is irrelevant to the claims, so all values are `Int`;
model nulls are absent because this file never constructs a null). -/
structure Col where
  dt : DataType
  vals : List Int
  deriving DecidableEq, Repr

/-- An Arrow `Schema` (`SchemaRef`): the `DFSchema` with qualifiers dropped. -/
def DFSchema.toArrow (s : DFSchema) : List Field :=
  s.qfields.map (·.2)

/-- Model of an Arrow `RecordBatch`: schema plus columns. Constructed only
through `RecordBatch.try_new`. -/
structure RecordBatch where
  schema : List Field
  columns : List Col
  deriving DecidableEq, Repr

/-- All columns share the first column's length (vacuous for no columns). -/
def colsSameLength (columns : List Col) : Bool :=
  match columns.head? with
  | some c0 => columns.all (fun c => c.vals.length = c0.vals.length)
  | none => true

/-- `RecordBatch::try_new`: the column count must match the schema, each
column's data type must match its field, and all columns must share one
length. -/
def RecordBatch.try_new (schema : List Field) (columns : List Col) :
    Except DFError RecordBatch :=
  if columns.length = schema.length ∧
      (List.zip schema columns).all (fun p => p.1.dataType = p.2.dt) ∧
      colsSameLength columns then
    .ok ⟨schema, columns⟩
  else
    .error .arrowInvalidArgument

/-! ## The timestamp enumeration -/

/-- `(lo..=hi).step_by(step).collect()`: `lo, lo+step, lo+2*step, …` while
`≤ hi`. The `step = 0` case never occurs (Rust's `step_by(0)` panics and the
caller models that panic before calling); it returns `[]` here only to make
the recursion total. -/
def stepRange (step : Nat) (lo hi : Int) : List Int :=
  if _h0 : step = 0 then []
  else if _h : lo ≤ hi then lo :: stepRange step (lo + step) hi
  else []
  termination_by (hi - lo + 1).toNat
  decreasing_by omega

/-- The time-index construction in `EmptyMetricStream::poll_next`:
`(start..=end).step_by(interval as usize)`. The `i64 → usize` cast wraps
modulo `2^64`; a zero step makes `step_by` panic, modelled as `none`. -/
def timeArray (start end_ interval : Millisecond) : Option (List Int) :=
  let step := (interval % (2 ^ 64 : Int)).toNat
  if step = 0 then none
  else some (stepRange step start end_)

/-! ## Physical node and stream -/

/-- Model of a bound physical expression (`PhysicalExprRef`): evaluation
against a record batch, with `ColumnarValue::into_array` absorbed, yielding a
column or an evaluation error. -/
def PhysExpr := RecordBatch → Except DFError Col

/-- The physical node `EmptyMetricExec`. `properties` is reduced to the one
datum the claims touch: the declared output partition count
(`Partitioning::UnknownPartitioning(1)`). The metrics set carries no
behaviour and is omitted. -/
structure EmptyMetricExec where
  start : Millisecond
  end_ : Millisecond
  interval : Millisecond
  /-- Schema that only contains the time index column. -/
  time_index_schema : List Field
  /-- Schema of the output record batch. -/
  result_schema : List Field
  expr : Option PhysExpr
  partitionCount : Nat

/-- `EmptyMetric::to_execution_plan`: bind the optional logical expression
through the (external) physical planner, convert both schemas to Arrow form,
and declare a single unknown partition. -/
def EmptyMetric.to_execution_plan (m : EmptyMetric)
    (create_physical_expr : Expr → DFSchema → Except DFError PhysExpr) :
    Except DFError EmptyMetricExec :=
  let physical_expr : Except DFError (Option PhysExpr) :=
    match m.expr with
    | some e =>
        match create_physical_expr e m.time_index_schema with
        | .error err => .error err
        | .ok pe => .ok (some pe)
    | none => .ok none
  match physical_expr with
  | .error err => .error err
  | .ok physical_expr =>
      .ok { start := m.start, end_ := m.end_, interval := m.interval,
            time_index_schema := m.time_index_schema.toArrow,
            result_schema := m.result_schema.toArrow,
            expr := physical_expr, partitionCount := 1 }

/-- `ExecutionPlan::children` for `EmptyMetricExec`: always empty. -/
def EmptyMetricExec.children (_e : EmptyMetricExec) : List EmptyMetricExec :=
  []

/-- `ExecutionPlan::with_new_children` for `EmptyMetricExec`: the argument is
ignored and a clone of the node itself is returned, for every children list. -/
def EmptyMetricExec.with_new_children (e : EmptyMetricExec)
    (_children : List EmptyMetricExec) : Except DFError EmptyMetricExec :=
  .ok e

/-- The stream `EmptyMetricStream` as seen between polls. -/
structure EmptyMetricStream where
  start : Millisecond
  end_ : Millisecond
  interval : Millisecond
  expr : Option PhysExpr
  /-- This stream only generates one record batch, at the first poll. -/
  is_first_poll : Bool
  /-- Schema that only contains the time index column. -/
  time_index_schema : List Field
  /-- Schema of the output record batch. -/
  result_schema : List Field

/-- `EmptyMetricExec::execute`: builds the fresh stream; the partition index
is used only to label metrics and is never validated. -/
def EmptyMetricExec.execute (e : EmptyMetricExec) (_partition : Nat) :
    Except DFError EmptyMetricStream :=
  .ok { start := e.start, end_ := e.end_, interval := e.interval,
        expr := e.expr, is_first_poll := true,
        time_index_schema := e.time_index_schema,
        result_schema := e.result_schema }

/-- One poll result: `none` stands for `Poll::Ready(None)` (end of data),
`some item` for `Poll::Ready(Some(item))`. The stream never returns
`Poll::Pending`. -/
abbrev PollItem := Option (Except DFError RecordBatch)

/-- `EmptyMetricStream::poll_next`. The outer `Option` models the `step_by(0)`
panic (`none` = panic); otherwise the poll item and the post-poll stream state
are returned. Mirrors the source: flip `is_first_poll`, enumerate timestamps,
build the ts-only input batch (`?` propagates its error as a failed item),
evaluate the optional field expression (`?` likewise), then assemble the
output batch and return it as the single item — or `Ready(None)` on every
later poll. -/
def poll_next (s : EmptyMetricStream) :
    Option (PollItem × EmptyMetricStream) :=
  if s.is_first_poll then
    let s' := { s with is_first_poll := false }
    match timeArray s.start s.end_ s.interval with
    | none => none
    | some time_vals =>
      let time_col : Col := ⟨.timestampMs, time_vals⟩
      match RecordBatch.try_new s.time_index_schema [time_col] with
      | .error e => some (some (.error e), s')
      | .ok input_record_batch =>
        match s.expr with
        | none =>
            some (some (RecordBatch.try_new s.result_schema [time_col]), s')
        | some field_expr =>
          match field_expr input_record_batch with
          | .error e => some (some (.error e), s')
          | .ok val_col =>
              some (some (RecordBatch.try_new s.result_schema [time_col, val_col]), s')
  else
    some (none, s)

/-! ## Lemmas about the enumeration -/

lemma stepRange_of_lt (step : Nat) (lo hi : Int) (h : hi < lo) :
    stepRange step lo hi = [] := by
  rw [stepRange]
  split_ifs with h1 h2
  · rfl
  · omega
  · rfl

lemma stepRange_of_le (step : Nat) (lo hi : Int) (h0 : step ≠ 0) (h : lo ≤ hi) :
    stepRange step lo hi = lo :: stepRange step (lo + step) hi := by
  rw [stepRange]
  rw [dif_neg h0, dif_pos h]

/-- Closed form of the enumeration: for a positive step and a nonempty range,
`stepRange step lo hi` is `lo, lo+step, …` with exactly
`(hi - lo) / step + 1` elements. -/
lemma stepRange_closed_form (step : Nat) (h0 : step ≠ 0) :
    ∀ (d : Nat) (lo hi : Int), lo ≤ hi → (hi - lo).toNat = d →
      stepRange step lo hi =
        (List.range (((hi - lo) / (step : Int)).toNat + 1)).map
          (fun (k : Nat) => lo + (k : Int) * (step : Int)) := by
  intro d
  induction d using Nat.strong_induction_on with
  | _ d ih =>
    intro lo hi hle hd
    rw [stepRange_of_le step lo hi h0 hle]
    by_cases hc : lo + (step : Int) ≤ hi
    · have hd' : (hi - (lo + (step : Int))).toNat < d := by omega
      have ihs := ih _ hd' (lo + (step : Int)) hi hc rfl
      rw [ihs]
      have hsplit : hi - lo = (hi - (lo + (step : Int))) + 1 * (step : Int) := by ring
      have hstep' : (step : Int) ≠ 0 := by exact_mod_cast h0
      have hq : (hi - lo) / (step : Int) = (hi - (lo + (step : Int))) / (step : Int) + 1 := by
        rw [hsplit, Int.add_mul_ediv_right _ _ hstep']
      have hqnn : 0 ≤ (hi - (lo + (step : Int))) / (step : Int) :=
        Int.ediv_nonneg (by omega) (by positivity)
      have hqt : ((hi - lo) / (step : Int)).toNat
          = ((hi - (lo + (step : Int))) / (step : Int)).toNat + 1 := by
        omega
      rw [hqt]
      conv_rhs => rw [List.range_succ_eq_map]
      rw [List.map_cons, List.map_map]
      congr 1
      · simp
      · congr 1
        funext k
        simp only [Function.comp_apply]
        push_cast
        ring
    · have hempty : stepRange step (lo + (step : Int)) hi = [] :=
        stepRange_of_lt _ _ _ (by omega)
      have hq0 : (hi - lo) / (step : Int) = 0 :=
        Int.ediv_eq_zero_of_lt (by omega) (by omega)
      rw [hempty, hq0]
      simp [List.range_succ]

lemma stepRange_length (step : Nat) (lo hi : Int) (h0 : step ≠ 0) (h : lo ≤ hi) :
    ((stepRange step lo hi).length : Int) = (hi - lo) / (step : Int) + 1 := by
  rw [stepRange_closed_form step h0 _ lo hi h rfl]
  have : 0 ≤ (hi - lo) / (step : Int) :=
    Int.ediv_nonneg (by omega) (by positivity)
  simp [Int.toNat_of_nonneg this]

lemma stepRange_getElem (step : Nat) (lo hi : Int) (h0 : step ≠ 0) (h : lo ≤ hi)
    (k : Nat) (hk : k < (stepRange step lo hi).length) :
    (stepRange step lo hi)[k] = lo + (k : Int) * (step : Int) := by
  have hcf := stepRange_closed_form step h0 _ lo hi h rfl
  have hk' : k < ((hi - lo) / (step : Int)).toNat + 1 := by
    rw [hcf] at hk
    simpa using hk
  simp only [hcf]
  simp [List.getElem_map, List.getElem_range]

lemma stepRange_ne_nil (step : Nat) (lo hi : Int) (h0 : step ≠ 0) (h : lo ≤ hi) :
    stepRange step lo hi ≠ [] := by
  rw [stepRange_of_le step lo hi h0 h]
  simp

/-- Destructing a successful `RecordBatch.try_new`. -/
lemma RecordBatch.try_new_ok {schema : List Field} {cols : List Col}
    {b : RecordBatch} (h : RecordBatch.try_new schema cols = .ok b) :
    b.schema = schema ∧ b.columns = cols ∧ cols.length = schema.length ∧
      (List.zip schema cols).all (fun p => p.1.dataType = p.2.dt) ∧
      colsSameLength cols := by
  unfold RecordBatch.try_new at h
  split_ifs at h with hcond
  cases h
  exact ⟨rfl, rfl, hcond.1, hcond.2.1, hcond.2.2⟩

/-- Shape of a batch successfully emitted by the first poll: its schema is the
stream's result schema, its first column is the enumerated timestamp column,
followed by at most one value column, and it passed all `try_new` checks. -/
lemma poll_next_first_ok_shape
    (s : EmptyMetricStream) (b : RecordBatch) (s' : EmptyMetricStream)
    (hfirst : s.is_first_poll = true)
    (hpoll : poll_next s = some (some (.ok b), s')) :
    b.schema = s.result_schema ∧
    (∃ rest, b.columns =
        (⟨.timestampMs, stepRange (s.interval % (2 ^ 64 : Int)).toNat s.start s.end_⟩ : Col)
          :: rest ∧ rest.length ≤ 1) ∧
    b.columns.length = s.result_schema.length ∧
    (List.zip s.result_schema b.columns).all (fun p => p.1.dataType = p.2.dt) ∧
    colsSameLength b.columns := by
  simp only [poll_next, hfirst, if_true] at hpoll
  split at hpoll
  next heq => simp at hpoll
  next tv heq =>
    simp only [timeArray] at heq
    split_ifs at heq with h0
    replace heq := Option.some.inj heq
    subst heq
    split at hpoll
    next e heq2 => simp at hpoll
    next rb heq2 =>
      split at hpoll
      · -- expr = none
        have hitem : RecordBatch.try_new s.result_schema
            [⟨.timestampMs, stepRange (s.interval % (2 ^ 64 : Int)).toNat s.start s.end_⟩]
            = .ok b :=
          Option.some.inj (congrArg Prod.fst (Option.some.inj hpoll))
        obtain ⟨hs, hc, hlen, hty, hsl⟩ := RecordBatch.try_new_ok hitem
        exact ⟨hs, ⟨[], by simpa using hc⟩, by rw [hc, hlen], by rw [hc]; exact hty,
          by rw [hc]; exact hsl⟩
      · -- expr = some field_expr
        next field_expr =>
        split at hpoll
        next e heq3 => simp at hpoll
        next val_col heq3 =>
          have hitem : RecordBatch.try_new s.result_schema
              [⟨.timestampMs, stepRange (s.interval % (2 ^ 64 : Int)).toNat s.start s.end_⟩,
                val_col] = .ok b :=
            Option.some.inj (congrArg Prod.fst (Option.some.inj hpoll))
          obtain ⟨hs, hc, hlen, hty, hsl⟩ := RecordBatch.try_new_ok hitem
          exact ⟨hs, ⟨[val_col], by simpa using hc⟩, by rw [hc, hlen], by rw [hc]; exact hty,
            by rw [hc]; exact hsl⟩

/-- **C1**: with a positive (i64) interval, the single batch emitted by the
first pull carries exactly the timestamps `start + k·interval ≤ end`, in
order: when `start ≤ end` the row count is `(end - start) / interval + 1`,
the `k`-th timestamp is `start + k·interval`, and the last timestamp `last`
satisfies `last ≤ end` and `end - last < interval`; when `end < start` the
timestamp column is empty. -/
theorem first_poll_emits_exact_grid
    (s : EmptyMetricStream) (b : RecordBatch) (s' : EmptyMetricStream)
    (hfirst : s.is_first_poll = true)
    (hpos : 0 < s.interval) (hi64 : s.interval < 2 ^ 63)
    (hpoll : poll_next s = some (some (.ok b), s')) :
    ∃ tcol rest, b.columns = tcol :: rest ∧ tcol.dt = .timestampMs ∧
      (s.start ≤ s.end_ →
        ((tcol.vals.length : Int) = (s.end_ - s.start) / s.interval + 1 ∧
         (∀ (k : Nat) (hk : k < tcol.vals.length),
            tcol.vals[k] = s.start + (k : Int) * s.interval) ∧
         (∃ last, tcol.vals.getLast? = some last ∧
            last ≤ s.end_ ∧ s.end_ - last < s.interval))) ∧
      (s.end_ < s.start → tcol.vals = []) := by
  have hcast : ((s.interval.toNat : Int)) = s.interval :=
    Int.toNat_of_nonneg (le_of_lt hpos)
  have hne : s.interval.toNat ≠ 0 := by
    intro h
    have h0 : s.interval = 0 := by
      rw [← hcast, h]
      simp
    linarith
  have hmod : s.interval % (2 ^ 64 : Int) = s.interval :=
    Int.emod_eq_of_lt (le_of_lt hpos) (lt_trans hi64 (by norm_num))
  obtain ⟨-, ⟨rest, hcols, -⟩, -, -, -⟩ :=
    poll_next_first_ok_shape s b s' hfirst hpoll
  rw [hmod] at hcols
  refine ⟨_, rest, hcols, rfl, ?_, ?_⟩
  · intro hle
    refine ⟨?_, ?_, ?_⟩
    · have := stepRange_length s.interval.toNat s.start s.end_ hne hle
      rwa [hcast] at this
    · intro k hk
      have := stepRange_getElem s.interval.toNat s.start s.end_ hne hle k hk
      rwa [hcast] at this
    · have hlen := stepRange_length s.interval.toNat s.start s.end_ hne hle
      rw [hcast] at hlen
      have hq0 : 0 ≤ (s.end_ - s.start) / s.interval :=
        Int.ediv_nonneg (by linarith) (le_of_lt hpos)
      have hone : 1 ≤ (stepRange s.interval.toNat s.start s.end_).length := by
        have h1 : (1 : Int) ≤ ((stepRange s.interval.toNat s.start s.end_).length : Int) := by
          rw [hlen]; linarith
        exact_mod_cast h1
      have hidx : (stepRange s.interval.toNat s.start s.end_).length - 1
          < (stepRange s.interval.toNat s.start s.end_).length := by omega
      have hlast : (stepRange s.interval.toNat s.start s.end_).getLast?
          = some ((stepRange s.interval.toNat s.start s.end_)[
              (stepRange s.interval.toNat s.start s.end_).length - 1]) := by
        rw [List.getLast?_eq_getElem?, List.getElem?_eq_getElem hidx]
      have hget := stepRange_getElem s.interval.toNat s.start s.end_ hne hle _ hidx
      rw [hcast] at hget
      have hidxval : (((stepRange s.interval.toNat s.start s.end_).length - 1 : Nat) : Int)
          = (s.end_ - s.start) / s.interval := by
        rw [Nat.cast_sub hone, hlen]
        simp
      refine ⟨_, hlast, ?_, ?_⟩
      · rw [hget, hidxval]
        have hdm := Int.ediv_add_emod (s.end_ - s.start) s.interval
        have hr0 : 0 ≤ (s.end_ - s.start) % s.interval :=
          Int.emod_nonneg _ (ne_of_gt hpos)
        nlinarith [hdm, hr0]
      · rw [hget, hidxval]
        have hdm := Int.ediv_add_emod (s.end_ - s.start) s.interval
        have hrlt : (s.end_ - s.start) % s.interval < s.interval :=
          Int.emod_lt_of_pos _ hpos
        nlinarith [hdm, hrlt]
  · intro hlt
    exact stepRange_of_lt _ _ _ hlt

/-- A concrete time-index field for witnesses. -/
def tsFieldT : Field := ⟨"time", .timestampMs, false⟩

/-- Concrete stream for the C1 witness: `start = 0`, `end = 100`,
`interval = 30`, no field expression. -/
def c1Stream : EmptyMetricStream :=
  { start := 0, end_ := 100, interval := 30, expr := none, is_first_poll := true,
    time_index_schema := [tsFieldT], result_schema := [tsFieldT] }

/-- The batch the C1 witness stream emits. -/
def c1Batch : RecordBatch := ⟨[tsFieldT], [⟨.timestampMs, [0, 30, 60, 90]⟩]⟩

/-- The C1 witness stream after its first poll. -/
def c1Done : EmptyMetricStream := { c1Stream with is_first_poll := false }

lemma c1_stepRange : stepRange 30 0 100 = [0, 30, 60, 90] := by
  norm_num [stepRange_of_le, stepRange_of_lt]

lemma c1_poll_eval : poll_next c1Stream = some (some (.ok c1Batch), c1Done) := by
  have htime : timeArray c1Stream.start c1Stream.end_ c1Stream.interval
      = some (stepRange 30 0 100) := rfl
  rw [poll_next, if_pos (show c1Stream.is_first_poll = true from rfl), htime, c1_stepRange]
  rfl

/-- Witness for C1 at `start = 0`, `end = 100`, `interval = 30`. -/
theorem first_poll_emits_exact_grid_witness :
    c1Stream.is_first_poll = true ∧ (0 : Int) < c1Stream.interval ∧
    c1Stream.interval < 2 ^ 63 ∧
    poll_next c1Stream = some (some (.ok c1Batch), c1Done) ∧
    (∃ tcol rest, c1Batch.columns = tcol :: rest ∧ tcol.dt = .timestampMs ∧
      (c1Stream.start ≤ c1Stream.end_ →
        ((tcol.vals.length : Int) = (c1Stream.end_ - c1Stream.start) / c1Stream.interval + 1 ∧
         (∀ (k : Nat) (hk : k < tcol.vals.length),
            tcol.vals[k] = c1Stream.start + (k : Int) * c1Stream.interval) ∧
         (∃ last, tcol.vals.getLast? = some last ∧
            last ≤ c1Stream.end_ ∧ c1Stream.end_ - last < c1Stream.interval))) ∧
      (c1Stream.end_ < c1Stream.start → tcol.vals = [])) :=
  ⟨rfl, by decide, by decide, c1_poll_eval,
    first_poll_emits_exact_grid c1Stream c1Batch c1Done rfl (by decide) (by decide) c1_poll_eval⟩

/-- After the first poll (flag already lowered), every poll returns
end-of-data and leaves the stream untouched. -/
lemma poll_next_done (s : EmptyMetricStream) (h : s.is_first_poll = false) :
    poll_next s = some (none, s) := by
  rw [poll_next]
  rw [if_neg]
  rw [h]
  simp

/-- The `timeArray` enumeration as `poll_next` sees it, when the wrapped step
is nonzero. -/
lemma timeArray_eq_of_step_ne_zero (start end_ interval : Int)
    (h0 : (interval % (2 ^ 64 : Int)).toNat ≠ 0) :
    timeArray start end_ interval
      = some (stepRange (interval % (2 ^ 64 : Int)).toNat start end_) := by
  simp only [timeArray]
  rw [if_neg h0]

/-- A first poll with a nonzero wrapped step always produces exactly one item
and lowers the flag. -/
lemma poll_next_first_item (s : EmptyMetricStream) (hfirst : s.is_first_poll = true)
    (h0 : (s.interval % (2 ^ 64 : Int)).toNat ≠ 0) :
    ∃ item, poll_next s = some (some item, { s with is_first_poll := false }) := by
  have htime := timeArray_eq_of_step_ne_zero s.start s.end_ s.interval h0
  cases htn : RecordBatch.try_new s.time_index_schema
      [⟨.timestampMs, stepRange (s.interval % (2 ^ 64 : Int)).toNat s.start s.end_⟩] with
  | error e => exact ⟨.error e, by simp only [poll_next, hfirst, htime, htn, if_true]⟩
  | ok rb =>
    cases hex : s.expr with
    | none =>
        exact ⟨RecordBatch.try_new s.result_schema
            [⟨.timestampMs, stepRange (s.interval % (2 ^ 64 : Int)).toNat s.start s.end_⟩],
          by simp only [poll_next, hfirst, htime, htn, hex, if_true]⟩
    | some f =>
      cases hev : f rb with
      | error e => exact ⟨.error e, by simp only [poll_next, hfirst, htime, htn, hex, hev, if_true]⟩
      | ok vc =>
          exact ⟨RecordBatch.try_new s.result_schema
              [⟨.timestampMs, stepRange (s.interval % (2 ^ 64 : Int)).toNat s.start s.end_⟩, vc],
            by simp only [poll_next, hfirst, htime, htn, hex, hev, if_true]⟩

/-- **C4**: the stream is one-shot. A poll with the flag lowered returns
end-of-data and does not change the state; a first poll (whose wrapped step is
nonzero, i.e. that does not hit the `step_by(0)` panic) returns exactly one
item — batch or error — and lowers the flag, after which every poll returns
end-of-data. -/
theorem stream_one_shot :
    (∀ s : EmptyMetricStream, s.is_first_poll = false → poll_next s = some (none, s)) ∧
    (∀ s : EmptyMetricStream, s.is_first_poll = true →
      (s.interval % (2 ^ 64 : Int)).toNat ≠ 0 →
      ∃ item s', poll_next s = some (some item, s') ∧ s'.is_first_poll = false ∧
        poll_next s' = some (none, s')) := by
  refine ⟨poll_next_done, ?_⟩
  intro s hfirst h0
  obtain ⟨item, hitem⟩ := poll_next_first_item s hfirst h0
  exact ⟨item, _, hitem, rfl, poll_next_done _ rfl⟩

/-- Concrete stream for the C4 witness, with an empty grid (`end < start`). -/
def c4Pending : EmptyMetricStream :=
  { start := 0, end_ := -5, interval := 7, expr := none, is_first_poll := true,
    time_index_schema := [tsFieldT], result_schema := [tsFieldT] }

/-- The C4 witness stream with its flag already lowered. -/
def c4Done : EmptyMetricStream := { c4Pending with is_first_poll := false }

/-- Witness for C4: the zero-row stream produces one item on the first poll
and end-of-data afterwards. -/
theorem stream_one_shot_witness :
    c4Done.is_first_poll = false ∧ poll_next c4Done = some (none, c4Done) ∧
    c4Pending.is_first_poll = true ∧ (c4Pending.interval % (2 ^ 64 : Int)).toNat ≠ 0 ∧
    (∃ item s', poll_next c4Pending = some (some item, s') ∧ s'.is_first_poll = false ∧
      poll_next s' = some (none, s')) :=
  ⟨rfl, stream_one_shot.1 c4Done rfl, rfl, by decide,
    stream_one_shot.2 c4Pending rfl (by decide)⟩

/-- **C6**: if evaluation of the bound expression fails on the first pull, the
pull yields exactly the failed item (no batch), the flag is lowered, and every
subsequent pull returns end-of-data. -/
theorem eval_error_single_failed_item
    (s : EmptyMetricStream) (f : PhysExpr) (e : DFError) (rbIn : RecordBatch)
    (hfirst : s.is_first_poll = true)
    (h0 : (s.interval % (2 ^ 64 : Int)).toNat ≠ 0)
    (hexpr : s.expr = some f)
    (htn : RecordBatch.try_new s.time_index_schema
      [⟨.timestampMs, stepRange (s.interval % (2 ^ 64 : Int)).toNat s.start s.end_⟩]
      = .ok rbIn)
    (heval : f rbIn = .error e) :
    poll_next s = some (some (.error e), { s with is_first_poll := false }) ∧
    poll_next { s with is_first_poll := false }
      = some (none, { s with is_first_poll := false }) := by
  have htime := timeArray_eq_of_step_ne_zero s.start s.end_ s.interval h0
  exact ⟨by simp only [poll_next, hfirst, htime, htn, hexpr, heval, if_true],
    poll_next_done _ rfl⟩

/-- An always-failing bound expression, for the C6 witness. -/
def c6Fail : PhysExpr := fun _ => .error (.evaluation "overflow")

/-- A nullable value field, for witnesses with an expression. -/
def valFieldF : Field := ⟨"value", .float64, true⟩

/-- Concrete stream for the C6 witness. -/
def c6Stream : EmptyMetricStream :=
  { start := 0, end_ := 10, interval := 5, expr := some c6Fail, is_first_poll := true,
    time_index_schema := [tsFieldT], result_schema := [tsFieldT, valFieldF] }

/-- The ts-only input batch the C6 witness stream builds. -/
def c6RbIn : RecordBatch := ⟨[tsFieldT], [⟨.timestampMs, [0, 5, 10]⟩]⟩

lemma c6_try_new : RecordBatch.try_new c6Stream.time_index_schema
    [⟨.timestampMs, stepRange ((c6Stream.interval % (2 ^ 64 : Int)).toNat)
        c6Stream.start c6Stream.end_⟩] = .ok c6RbIn := by
  have hsr : stepRange ((c6Stream.interval % (2 ^ 64 : Int)).toNat)
      c6Stream.start c6Stream.end_ = [0, 5, 10] := by
    show stepRange 5 0 10 = [0, 5, 10]
    norm_num [stepRange_of_le, stepRange_of_lt]
  rw [hsr]
  rfl

/-- Witness for C6: a failing expression yields exactly one failed item, then
end-of-data. -/
theorem eval_error_single_failed_item_witness :
    c6Stream.is_first_poll = true ∧ (c6Stream.interval % (2 ^ 64 : Int)).toNat ≠ 0 ∧
    c6Stream.expr = some c6Fail ∧ c6Fail c6RbIn = .error (.evaluation "overflow") ∧
    (poll_next c6Stream = some (some (.error (.evaluation "overflow")),
        { c6Stream with is_first_poll := false }) ∧
      poll_next { c6Stream with is_first_poll := false }
        = some (none, { c6Stream with is_first_poll := false })) :=
  ⟨rfl, by decide, rfl, rfl,
    eval_error_single_failed_item c6Stream c6Fail (.evaluation "overflow") c6RbIn
      rfl (by decide) rfl c6_try_new rfl⟩

/-! ## C2: equality vs ordering on the logical node -/

/-- `EmptyMetric::new(0, 1, 1, "t1", "v", None)`. -/
def c2MetricA : EmptyMetric :=
  { start := 0, end_ := 1, interval := 1, expr := none,
    time_index_schema := build_ts_only_schema "t1",
    result_schema := ⟨[(some "", ⟨"t1", .timestampMs, false⟩)]⟩ }

/-- `EmptyMetric::new(0, 1, 1, "t2", "v", None)`: same bounds and expression,
different time column name, hence different derived schemas. -/
def c2MetricB : EmptyMetric :=
  { start := 0, end_ := 1, interval := 1, expr := none,
    time_index_schema := build_ts_only_schema "t2",
    result_schema := ⟨[(some "", ⟨"t2", .timestampMs, false⟩)]⟩ }

/-- **C2**: two constructions agreeing on `(start, end, interval, expr)` but
with different derived schemas: the hand-written `partial_cmp` calls them
`Equal`, yet the derived `PartialEq` (which compares the schema fields too)
calls them unequal — equality does *not* compare only the four-tuple. -/
theorem derived_eq_compares_schema_fields :
    EmptyMetric.new 0 1 1 "t1" "v" none = .ok c2MetricA ∧
    EmptyMetric.new 0 1 1 "t2" "v" none = .ok c2MetricB ∧
    c2MetricA.start = c2MetricB.start ∧ c2MetricA.end_ = c2MetricB.end_ ∧
    c2MetricA.interval = c2MetricB.interval ∧ c2MetricA.expr = c2MetricB.expr ∧
    EmptyMetric.pcmp c2MetricA c2MetricB = some .eq ∧
    c2MetricA.rustEq c2MetricB = false ∧ c2MetricA ≠ c2MetricB := by
  decide

/-! ## C5: shape of the result schema and conformance of the emitted batch -/

/-- **C5**: a construction without an expression yields a one-column result
schema (the non-nullable millisecond timestamp column); with an expression it
yields exactly (timestamp, value) where the value column is nullable and
typed by type-checking the expression against the ts-only schema; and any
batch emitted by a first poll conforms to the stream's result schema (column
count, column types, equal column lengths), including the zero-row case. -/
theorem result_schema_shape :
    (∀ (st en iv : Int) (tn vn : String) (m : EmptyMetric),
      EmptyMetric.new st en iv tn vn none = .ok m →
      m.result_schema.qfields = [(some "", ⟨tn, .timestampMs, false⟩)]) ∧
    (∀ (st en iv : Int) (tn vn : String) (ex : Expr) (m : EmptyMetric),
      EmptyMetric.new st en iv tn vn (some ex) = .ok m →
      ∃ dt, Expr.get_type (build_ts_only_schema tn) ex = .ok dt ∧
        m.result_schema.qfields
          = [(some "", ⟨tn, .timestampMs, false⟩), (some "", ⟨vn, dt, true⟩)]) ∧
    (∀ (s : EmptyMetricStream) (b : RecordBatch) (s' : EmptyMetricStream),
      s.is_first_poll = true → poll_next s = some (some (.ok b), s') →
      b.schema = s.result_schema ∧ b.columns.length = s.result_schema.length ∧
      (List.zip s.result_schema b.columns).all (fun p => p.1.dataType = p.2.dt) ∧
      colsSameLength b.columns) := by
  refine ⟨?_, ?_, ?_⟩
  · intro st en iv tn vn m h
    have hnd : (([(some "", (⟨tn, .timestampMs, false⟩ : Field))]).map
        (fun qf => (qf.1, qf.2.name))).Nodup := by simp
    simp only [EmptyMetric.new, DFSchema.new_with_metadata] at h
    rw [if_pos hnd] at h
    cases h
    rfl
  · intro st en iv tn vn ex m h
    simp only [EmptyMetric.new] at h
    cases hgt : Expr.get_type (build_ts_only_schema tn) ex with
    | error e =>
        simp [hgt] at h
    | ok dt =>
        simp only [hgt] at h
        refine ⟨dt, rfl, ?_⟩
        split at h
        next e2 heq => simp at h
        next schema heq =>
          cases h
          unfold DFSchema.new_with_metadata at heq
          split_ifs at heq
          cases heq
          rfl
  · intro s b s' hfirst hpoll
    obtain ⟨hs, -, hrest⟩ := poll_next_first_ok_shape s b s' hfirst hpoll
    exact ⟨hs, hrest.1, hrest.2.1, hrest.2.2⟩

/-- `EmptyMetric::new(0, 200, 1000, "t", "v", None)`, scenario D of the spec. -/
def c5NoExpr : EmptyMetric :=
  { start := 0, end_ := 200, interval := 1000, expr := none,
    time_index_schema := build_ts_only_schema "t",
    result_schema := ⟨[(some "", ⟨"t", .timestampMs, false⟩)]⟩ }

/-- A field expression casting the time column to `Float64`. -/
def c5Expr : Expr := .cast (.col "t") .float64

/-- `EmptyMetric::new(0, 100, 10, "t", "v", Some(cast(t, Float64)))`. -/
def c5WithExpr : EmptyMetric :=
  { start := 0, end_ := 100, interval := 10, expr := some c5Expr,
    time_index_schema := build_ts_only_schema "t",
    result_schema := ⟨[(some "", ⟨"t", .timestampMs, false⟩),
                       (some "", ⟨"v", .float64, true⟩)]⟩ }

/-- A zero-row stream (`end < start`, scenario C) for the batch-conformance
part of the C5 witness. -/
def c5Stream : EmptyMetricStream :=
  { start := 1000, end_ := -1000, interval := 10, expr := none, is_first_poll := true,
    time_index_schema := [tsFieldT], result_schema := [tsFieldT] }

/-- The zero-row batch the C5 witness stream emits. -/
def c5Batch : RecordBatch := ⟨[tsFieldT], [⟨.timestampMs, []⟩]⟩

lemma c5_poll_eval : poll_next c5Stream
    = some (some (.ok c5Batch), { c5Stream with is_first_poll := false }) := by
  have htime : timeArray c5Stream.start c5Stream.end_ c5Stream.interval
      = some (stepRange 10 1000 (-1000)) := rfl
  rw [poll_next, if_pos (show c5Stream.is_first_poll = true from rfl), htime,
    stepRange_of_lt 10 1000 (-1000) (by norm_num)]
  rfl

/-- Witness for C5: the one-column schema, the two-column schema typed by the
expression, and conformance of a zero-row emitted batch. -/
theorem result_schema_shape_witness :
    EmptyMetric.new 0 200 1000 "t" "v" none = .ok c5NoExpr ∧
    c5NoExpr.result_schema.qfields = [(some "", ⟨"t", .timestampMs, false⟩)] ∧
    EmptyMetric.new 0 100 10 "t" "v" (some c5Expr) = .ok c5WithExpr ∧
    (∃ dt, Expr.get_type (build_ts_only_schema "t") c5Expr = .ok dt ∧
      c5WithExpr.result_schema.qfields
        = [(some "", ⟨"t", .timestampMs, false⟩), (some "", ⟨"v", dt, true⟩)]) ∧
    c5Stream.is_first_poll = true ∧
    poll_next c5Stream = some (some (.ok c5Batch), { c5Stream with is_first_poll := false }) ∧
    (c5Batch.schema = c5Stream.result_schema ∧
      c5Batch.columns.length = c5Stream.result_schema.length ∧
      (List.zip c5Stream.result_schema c5Batch.columns).all
        (fun p => p.1.dataType = p.2.dt) ∧
      colsSameLength c5Batch.columns) :=
  ⟨by decide, result_schema_shape.1 0 200 1000 "t" "v" c5NoExpr (by decide),
    by decide, result_schema_shape.2.1 0 100 10 "t" "v" c5Expr c5WithExpr (by decide),
    rfl, c5_poll_eval,
    result_schema_shape.2.2 c5Stream c5Batch _ rfl c5_poll_eval⟩

/-! ## C7: execute and the partition index -/

/-- A concrete physical node for the C7 theorems. -/
def c7Exec : EmptyMetricExec :=
  { start := 0, end_ := 10, interval := 5, time_index_schema := [tsFieldT],
    result_schema := [tsFieldT], expr := none, partitionCount := 1 }

/-- The stream `c7Exec.execute` hands back (for any partition index). -/
def c7Stream : EmptyMetricStream :=
  { start := 0, end_ := 10, interval := 5, expr := none, is_first_poll := true,
    time_index_schema := [tsFieldT], result_schema := [tsFieldT] }

/-- The batch that stream emits. -/
def c7Batch : RecordBatch := ⟨[tsFieldT], [⟨.timestampMs, [0, 5, 10]⟩]⟩

lemma c7_poll_eval : poll_next c7Stream
    = some (some (.ok c7Batch), { c7Stream with is_first_poll := false }) := by
  have htime : timeArray c7Stream.start c7Stream.end_ c7Stream.interval
      = some (stepRange 5 0 10) := rfl
  have hsr : stepRange 5 0 10 = [0, 5, 10] := by
    norm_num [stepRange_of_le, stepRange_of_lt]
  rw [poll_next, if_pos (show c7Stream.is_first_poll = true from rfl), htime, hsr]
  rfl

/-- Counterexample to **C7** as stated: `execute` called with partition `1`
(nonzero) does not fail — it returns the fully working one-shot stream, whose
first poll produces the normal batch. -/
theorem execute_accepts_nonzero_partition :
    c7Exec.execute 1 = .ok c7Stream ∧ c7Stream.is_first_poll = true ∧
    poll_next c7Stream = some (some (.ok c7Batch), { c7Stream with is_first_poll := false }) :=
  ⟨rfl, rfl, c7_poll_eval⟩

/-- **C7** (amended): `execute` never validates the partition index — it
returns the one-shot stream for *every* partition id; single-partition
validity is only declared through the node's properties, which
`to_execution_plan` always sets to one partition. -/
theorem execute_never_validates_partition :
    (∀ (e : EmptyMetricExec) (partition : Nat),
      e.execute partition
        = .ok { start := e.start, end_ := e.end_, interval := e.interval,
                expr := e.expr, is_first_poll := true,
                time_index_schema := e.time_index_schema,
                result_schema := e.result_schema }) ∧
    (∀ (m : EmptyMetric) (planner : Expr → DFSchema → Except DFError PhysExpr)
        (e2 : EmptyMetricExec),
      m.to_execution_plan planner = .ok e2 → e2.partitionCount = 1) := by
  refine ⟨fun e partition => rfl, ?_⟩
  intro m planner e2 h
  simp only [EmptyMetric.to_execution_plan] at h
  cases hm : m.expr with
  | none =>
      simp only [hm] at h
      cases h
      rfl
  | some e =>
      simp only [hm] at h
      cases hp : planner e m.time_index_schema with
      | error err => simp [hp] at h
      | ok pe =>
          simp only [hp] at h
          cases h
          rfl

/-- A logical node and a planner for the C7 witness. -/
def c7M : EmptyMetric :=
  { start := 0, end_ := 10, interval := 5, expr := none,
    time_index_schema := build_ts_only_schema "t",
    result_schema := ⟨[(some "", ⟨"t", .timestampMs, false⟩)]⟩ }

/-- A planner that is never consulted (the node has no expression). -/
def c7Planner : Expr → DFSchema → Except DFError PhysExpr :=
  fun _ _ => .error .typeCoercion

/-- The physical node `c7M.to_execution_plan c7Planner` produces. -/
def c7Exec2 : EmptyMetricExec :=
  { start := 0, end_ := 10, interval := 5,
    time_index_schema := (build_ts_only_schema "t").toArrow,
    result_schema := (⟨[(some "", ⟨"t", .timestampMs, false⟩)]⟩ : DFSchema).toArrow,
    expr := none, partitionCount := 1 }

/-- Witness for the amended C7: `execute` at partition 3 still returns the
stream, and a lowered node declares one partition. -/
theorem execute_never_validates_partition_witness :
    c7Exec.execute 3 = .ok c7Stream ∧
    EmptyMetric.to_execution_plan c7M c7Planner = .ok c7Exec2 ∧
    c7Exec2.partitionCount = 1 :=
  ⟨execute_never_validates_partition.1 c7Exec 3, rfl,
    execute_never_validates_partition.2 c7M c7Planner c7Exec2 rfl⟩

/-- **C8**: the node has no children, and `with_new_children` ignores its
argument entirely, returning the node itself unchanged for every children
list (including non-empty ones). -/
theorem with_new_children_is_noop :
    ∀ (e : EmptyMetricExec) (children : List EmptyMetricExec),
      e.children = [] ∧ e.with_new_children children = .ok e :=
  fun _ _ => ⟨rfl, rfl⟩

/-! ## C9: interval 0 panics; negative intervals wrap -/

/-- Counterexample to **C9** as stated: with `interval = -1` over the full
i64 range, the wrapped step is `2^64 - 1` and the enumeration yields *two*
rows, not one. -/
theorem negative_interval_not_single_row :
    ((-1 : Int) < 0) ∧ ((-(2 ^ 63) : Int) ≤ 2 ^ 63 - 1) ∧
    timeArray (-(2 ^ 63)) (2 ^ 63 - 1) (-1) = some [-(2 ^ 63), 2 ^ 63 - 1] ∧
    [(-(2 ^ 63) : Int), 2 ^ 63 - 1].length ≠ 1 := by
  refine ⟨by norm_num, by norm_num, ?_, by norm_num⟩
  have hstep : (((-1 : Int) % (2 ^ 64 : Int)).toNat) = 18446744073709551615 := by decide
  have hne : (((-1 : Int) % (2 ^ 64 : Int)).toNat) ≠ 0 := by rw [hstep]; norm_num
  rw [timeArray_eq_of_step_ne_zero _ _ _ hne, hstep]
  norm_num [stepRange_of_le, stepRange_of_lt]

/-- **C9** (amended): `interval = 0` makes the first poll panic
(`step_by(0)`); an i64-range `interval < 0` is cast to the wrapped step
`2^64 + interval`, so the enumeration follows that huge stride — in
particular, when `start ≤ end` and `end - start < 2^64 + interval` (every
i64 input except the full range at `interval` close to `-1`) exactly one row
containing `start` is emitted. -/
theorem timeArray_zero_and_negative_interval :
    (∀ s : EmptyMetricStream, s.is_first_poll = true → s.interval = 0 →
      poll_next s = none) ∧
    (∀ start end_ interval : Int, -(2 ^ 63) ≤ interval → interval < 0 →
      timeArray start end_ interval
        = some (stepRange (2 ^ 64 + interval).toNat start end_) ∧
      (start ≤ end_ → end_ - start < 2 ^ 64 + interval →
        timeArray start end_ interval = some [start])) := by
  constructor
  · intro s hfirst hzero
    rw [poll_next, if_pos hfirst]
    have htime : timeArray s.start s.end_ s.interval = none := by
      simp only [timeArray]
      rw [if_pos (by rw [hzero]; decide)]
    rw [htime]
  · intro start end_ interval hlow hneg
    have e64 : (2 : Int) ^ 64 = 18446744073709551616 := by norm_num
    have e63 : (2 : Int) ^ 63 = 9223372036854775808 := by norm_num
    have hmod : interval % (2 ^ 64 : Int) = 2 ^ 64 + interval := by
      rw [e64] at *
      rw [e63] at hlow
      omega
    have hpos : (0 : Int) < 2 ^ 64 + interval := by
      rw [e64]
      rw [e63] at hlow
      omega
    have hcast : (((2 ^ 64 + interval).toNat : Int)) = 2 ^ 64 + interval :=
      Int.toNat_of_nonneg (le_of_lt hpos)
    have hne : ((2 ^ 64 + interval : Int)).toNat ≠ 0 := by
      intro h
      rw [h] at hcast
      simp at hcast
      linarith
    have htime := timeArray_eq_of_step_ne_zero start end_ interval (by rw [hmod]; exact hne)
    constructor
    · rw [htime, hmod]
    · intro hle hlt
      rw [htime, hmod]
      rw [stepRange_of_le _ _ _ hne hle]
      rw [stepRange_of_lt _ _ _ (by rw [hcast]; linarith)]

/-- A stream with `interval = 0`, for the C9 witness. -/
def c9ZeroStream : EmptyMetricStream :=
  { start := 0, end_ := 10, interval := 0, expr := none, is_first_poll := true,
    time_index_schema := [tsFieldT], result_schema := [tsFieldT] }

/-- Witness for the amended C9: `interval = 0` panics; `interval = -3` with
`start = 0, end = 5` emits exactly one row `[0]`. -/
theorem timeArray_zero_and_negative_interval_witness :
    c9ZeroStream.is_first_poll = true ∧ c9ZeroStream.interval = 0 ∧
    poll_next c9ZeroStream = none ∧
    ((-(2 ^ 63) : Int) ≤ -3) ∧ ((-3 : Int) < 0) ∧
    (timeArray 0 5 (-3) = some (stepRange ((2 ^ 64 + (-3) : Int)).toNat 0 5) ∧
      ((0 : Int) ≤ 5 → (5 : Int) - 0 < 2 ^ 64 + (-3) →
        timeArray 0 5 (-3) = some [0])) :=
  ⟨rfl, rfl, timeArray_zero_and_negative_interval.1 c9ZeroStream rfl rfl,
    by norm_num, by norm_num,
    timeArray_zero_and_negative_interval.2 0 5 (-3) (by norm_num) (by norm_num)⟩

/-! ## C10: rebuilding the logical node with new expressions -/

/-- The original field expression of the C10 instance (`Float64`-typed). -/
def c10Expr : Expr := .cast (.col "t") .float64

/-- The replacement expression (`Int64`-typed). -/
def c10Expr2 : Expr := .cast (.col "t") .int64

/-- The node `EmptyMetric::new(0, 100, 10, "t", "v", Some(c10Expr))` builds. -/
def c10M : EmptyMetric :=
  { start := 0, end_ := 100, interval := 10, expr := some c10Expr,
    time_index_schema := build_ts_only_schema "t",
    result_schema := ⟨[(some "", ⟨"t", .timestampMs, false⟩),
                       (some "", ⟨"v", .float64, true⟩)]⟩ }

/-- `c10M` rebuilt with the `Int64`-typed expression: the schema is kept. -/
def c10M2 : EmptyMetric := { c10M with expr := some c10Expr2 }

/-- **C10**: `with_exprs_and_inputs` keeps `start`, `end`, `interval` and both
schemas, and only replaces the expression by the head of the supplied list
(`none` for the empty list); the result schema is not recomputed, so
rebuilding with an expression of a different output type leaves the stored
schema (`Float64` value column) disagreeing with the stored expression
(which type-checks to `Int64`). -/
theorem with_exprs_and_inputs_frame :
    (∀ (m : EmptyMetric) (exprs : List Expr) (inputs : List Unit),
      ∃ m2, m.with_exprs_and_inputs exprs inputs = .ok m2 ∧
        m2.start = m.start ∧ m2.end_ = m.end_ ∧ m2.interval = m.interval ∧
        m2.time_index_schema = m.time_index_schema ∧
        m2.result_schema = m.result_schema ∧ m2.expr = exprs.head?) ∧
    (EmptyMetric.new 0 100 10 "t" "v" (some c10Expr) = .ok c10M ∧
      c10M.with_exprs_and_inputs [c10Expr2] [] = .ok c10M2 ∧
      c10M2.result_schema = c10M.result_schema ∧
      c10M2.expr = some c10Expr2 ∧
      Expr.get_type (build_ts_only_schema "t") c10Expr2 = .ok .int64 ∧
      (c10M2.result_schema.qfields.map fun qf => qf.2.dataType)
        = [.timestampMs, .float64]) := by
  refine ⟨fun m exprs inputs => ⟨_, rfl, rfl, rfl, rfl, rfl, rfl, rfl⟩, ?_⟩
  refine ⟨by decide, by decide, by decide, by decide, by decide, by decide⟩

end EmptyMetricSpec
